import Mathlib

/-!
Verification of the LoFi streamer orchestrator (`lofi-streamer.py`, continuous
edition v7.9, with the per-track variants `lofi-Streamer.py` v7.4 and
`lofi-streamer-pi4.py` v7.8 where noted).  The Python functions are embedded
shallowly: strings are lists of characters, the mutagen / ffprobe effects are
parameters recording what the external world would have answered, and the
`random.shuffle` randomness is a stream of drawn numbers.
-/

namespace LofiStreamer

/-- Python strings, modelled as lists of characters. -/
abbrev Str := List Char

/-- The single-quote character `'`. -/
def squote : Char := Char.ofNat 39

/-- The backslash character `\`. -/
def bslash : Char := Char.ofNat 92

/-- The colon character `:`. -/
def colonChar : Char := Char.ofNat 58

/-- One audio file of the catalog together with everything the external
world (mutagen, ffprobe) would report about it.
`path` is `str(t)`, `stem` is `t.stem`.
`title` / `artist` are the mutagen easy tags; the empty string stands for
"absent or unreadable" exactly as in the Python code, where a failed mutagen
read leaves the initial `""`.
`mutagenLength` is `m.info.length` when `mutagen.File` yields an object with
a numeric `length` attribute (`none` covers every failure path: exception,
falsy `m`, falsy `m.info`, missing attribute).
`probeOutput` is the ffprobe stdout parsed as a float (`none` covers an
empty stdout, an unparseable stdout, and a raised exception). -/
structure Track where
  path : Str
  stem : Str
  title : Str
  artist : Str
  mutagenLength : Option ℚ
  probeOutput : Option ℚ
deriving DecidableEq, Inhabited

/-- Python `int()` on a float/rational: truncation toward zero. -/
def pyInt (q : ℚ) : ℤ := q.num.tdiv q.den

/-- Python `str.replace(pat, rep)`: scan left to right, replacing each
non-overlapping occurrence of `pat`.  (The call sites of the repository use
one-character patterns only; the scan is the general CPython behavior for a
nonempty pattern.) -/
def pyReplace (pat rep : Str) : Str → Str
  | [] => []
  | c :: cs =>
    if h : pat ≠ [] ∧ pat.isPrefixOf (c :: cs) = true then
      rep ++ pyReplace pat rep ((c :: cs).drop pat.length)
    else
      c :: pyReplace pat rep cs
termination_by s => s.length
decreasing_by
  · simp only [List.length_drop, List.length_cons]
    have hp : 0 < pat.length := List.length_pos.mpr h.1
    omega
  · simp only [List.length_cons]
    omega

/-- `_track_duration`, ffprobe half (v7.9, `lofi-streamer.py` lines 238-256):
`max(1, int(float(val)))` when stdout is nonempty and parseable, else the
fallback `180`. -/
def probe_duration (t : Track) : ℤ :=
  match t.probeOutput with
  | some p => max 1 (pyInt p)
  | none => 180

/-- `_track_duration` (v7.9, `lofi-streamer.py` lines 228-256): mutagen length
first when truthy (nonzero), floored at 1, then the ffprobe fallback, then the
constant 180. -/
def _track_duration (t : Track) : ℤ :=
  match t.mutagenLength with
  | some d => if d ≠ 0 then max 1 (pyInt d) else probe_duration t
  | none => probe_duration t

/-- `_track_duration`, ffprobe half of the per-track variant (v7.4,
`lofi-Streamer.py` lines 302-310): `int(float(r.stdout.strip()))` without the
`max(1, ...)` floor, `180` on exception. -/
def probe_duration_v74 (t : Track) : ℤ :=
  match t.probeOutput with
  | some p => pyInt p
  | none => 180

/-- `_track_duration` of the per-track variant (v7.4, `lofi-Streamer.py`
lines 293-310): `int(m.info.length)` whenever `m` and `m.info` are truthy,
with no positivity floor. -/
def _track_duration_v74 (t : Track) : ℤ :=
  match t.mutagenLength with
  | some d => pyInt d
  | none => probe_duration_v74 t

/-- `_escape_drawtext` (`lofi-streamer.py` lines 193-194):
`s.replace(":", "\\:")`. -/
def _escape_drawtext (s : Str) : Str :=
  pyReplace [colonChar] [bslash, colonChar] s

/-- `_get_now_playing_str` (`lofi-streamer.py` lines 197-213): title falls
back to the stem, artist prepended as `f"{artist} - {title}"` when truthy,
then colon-escaped for drawtext. -/
def _get_now_playing_str (t : Track) : Str :=
  let title := if t.title = [] then t.stem else t.title
  let disp := if t.artist ≠ [] then t.artist ++ " - ".data ++ title else title
  _escape_drawtext disp

/-- Outcome of `write_nowplaying_file`: either the text reached the
now-playing file, or the IO error was caught and logged. -/
inductive WriteResult where
  | written (text : Str)
  | failedLogged (text : Str)
deriving DecidableEq

/-- `write_nowplaying_file` (`lofi-streamer.py` lines 216-222): computes the
label, tries the write, and catches any exception (`ioOk = false`), logging
instead of propagating.  The function is total: it never raises. -/
def write_nowplaying_file (t : Track) (ioOk : Bool) : WriteResult :=
  let text := _get_now_playing_str t
  if ioOk then .written text else .failedLogged text

/-- One step of the Python tuple swap `x[i], x[j] = x[j], x[i]` on a list,
a no-op when either index is out of range (Python's `random.shuffle` only
produces in-range indices). -/
def swapIdx {α : Type} (l : List α) (i j : ℕ) : List α :=
  match l[i]?, l[j]? with
  | some a, some b => (l.set i b).set j a
  | _, _ => l

/-- The loop of CPython's `random.shuffle(x)`:
`for i in reversed(range(1, len(x))): j = randbelow(i+1); swap x[i], x[j]`.
`js i` is the raw random draw used at index `i`; `randbelow (i+1)` is
modelled as `js i % (i+1)`. -/
def shuffleGo {α : Type} (js : ℕ → ℕ) : ℕ → List α → List α
  | 0, l => l
  | i + 1, l => shuffleGo js i (swapIdx l (i + 1) (js (i + 1) % (i + 2)))

/-- `random.shuffle` as called by `build_concat_file`: in-place Fisher-Yates
from index `len-1` down to `1`. -/
def pyShuffle {α : Type} (js : ℕ → ℕ) (l : List α) : List α :=
  shuffleGo js (l.length - 1) l

/-- The replacement string of the playlist quoting rule: a literal `'`
becomes `'\''`. -/
def quoteEsc : Str := "'\\''".data

/-- One line of the concat playlist file (`lofi-streamer.py` lines 279-281):
`f"file '{san}'\n"` with `san = str(t).replace("'", "'\\''")`. -/
def concatLine (t : Track) : Str :=
  "file '".data ++ pyReplace [squote] quoteEsc t.path ++ "'\n".data

/-- `build_concat_file` (`lofi-streamer.py` lines 271-285): copy the track
list, shuffle the copy, write one `concatLine` per element in shuffled order,
and return the shuffled order.  The first component is the sequence of lines
written to the playlist file, the second the returned order. -/
def build_concat_file (js : ℕ → ℕ) (tracks : List Track) : List Str × List Track :=
  let order := pyShuffle js tracks
  (order.map concatLine, order)

/-- `build_track_schedule` (`lofi-streamer.py` lines 258-265): pair every
track, in the given order, with its resolved duration.  (The printed total
is diagnostic only.) -/
def build_track_schedule (tracks : List Track) : List (Track × ℤ) :=
  tracks.map (fun t => (t, _track_duration t))

/-- The sleep performed by `metadata_loop` after each write
(`lofi-streamer.py` line 342): `time.sleep(max(1, dur - 1))`. -/
def metadataSleep (dur : ℤ) : ℤ := max 1 (dur - 1)

/-- Index of the schedule entry handled by the `k`-th iteration of
`metadata_loop`'s nested `while True: for track, dur in schedule:` loops:
after the last entry of a pass the inner loop ends and the outer loop starts
the next pass at entry 0. -/
def clockIndex (n : ℕ) : ℕ → ℕ
  | 0 => 0
  | k + 1 => if clockIndex n k + 1 < n then clockIndex n k + 1 else 0

/-- The observable effect of the `k`-th iteration of `metadata_loop`
(`lofi-streamer.py` lines 337-342): the label written to the now-playing
channel and the length of the sleep that follows. -/
def metadata_loop_event (sched : List (Track × ℤ)) (k : ℕ) : Str × ℤ :=
  let e := sched.getD (clockIndex sched.length k) default
  (_get_now_playing_str e.1, metadataSleep e.2)

/-- `check_network` (`lofi-streamer.py` lines 180-187): `True` at once when
the skip flag is set; otherwise the outcome of `socket.create_connection`,
where a raised exception (`conn = .error _`) is caught and turned into
`False`.  Totality of this function is the "never raises" contract. -/
def check_network (skip : Bool) (conn : Except Unit Unit) : Bool :=
  if skip then true
  else
    match conn with
    | .ok _ => true
    | .error _ => false

/-- Lifecycle actions the per-track supervisor can apply to the pipeline
process, in the order it applies them. -/
inductive SupAction where
  | wait (timeout : ℤ)
  | terminate
  | kill
deriving DecidableEq

/-- `TRACK_EXIT_BUFFER = 5` (`lofi-Streamer.py` line 30). -/
def TRACK_EXIT_BUFFER : ℤ := 5

/-- The RUNNING phase of the per-track supervisor (`lofi-Streamer.py` lines
388-394, identical in `lofi-streamer-pi4.py` lines 372-379): wait up to
`dur + TRACK_EXIT_BUFFER`; on `TimeoutExpired` terminate, wait up to 5 more
seconds, and kill only if that second wait also times out.
`exitsInMain` / `exitsInGrace` record whether the respective `p.wait` call
returned before its timeout. -/
def running_phase (dur : ℤ) (exitsInMain exitsInGrace : Bool) : List SupAction :=
  SupAction.wait (dur + TRACK_EXIT_BUFFER) ::
    (if exitsInMain then []
     else
       SupAction.terminate :: SupAction.wait 5 ::
         (if exitsInGrace then [] else [SupAction.kill]))

/-- How the orchestrating process left (or passed) its startup checks. -/
inductive StartupResult where
  | exited (code : ℕ)
  | proceeded
deriving DecidableEq

/-- Startup of `main` in `lofi-streamer.py` (lines 393-401): on a missing
stream URL or an empty catalog it prints an error and executes a bare
`return`; since the script calls `main()` as a plain statement, the process
then terminates with exit status 0. -/
def mainStartup (stream_url : Str) (tracks : List Track) : StartupResult :=
  if stream_url = [] then .exited 0
  else if tracks = [] then .exited 0
  else .proceeded

/-- Startup of `main` in `lofi-Streamer.py` (lines 356-364): the same checks
`return 1`, and the script runs `raise SystemExit(main())`, so the process
exits with status 1. -/
def mainStartup_v74 (stream_url : Str) (tracks : List Track) : StartupResult :=
  if stream_url = [] then .exited 1
  else if tracks = [] then .exited 1
  else .proceeded

/-- A heap of Python list objects holding tracks; addresses are indices,
allocation appends.  Used to state the frame property of
`build_concat_file`, whose argument is a reference to the caller's list. -/
structure PyHeap where
  cells : List (List Track)
deriving DecidableEq

/-- Dereference an address (out-of-range addresses read as `[]`; the
frame property only concerns valid addresses). -/
def heapRead (h : PyHeap) (a : ℕ) : List Track := h.cells.getD a []

/-- Overwrite the object at an address. -/
def heapWrite (h : PyHeap) (a : ℕ) (v : List Track) : PyHeap := ⟨h.cells.set a v⟩

/-- Allocate a fresh object, returning its address. -/
def heapAlloc (h : PyHeap) (v : List Track) : PyHeap × ℕ :=
  (⟨h.cells ++ [v]⟩, h.cells.length)

/-- `order = list(tracks)`: allocate a fresh list holding a copy of the
referenced one. -/
def pyListCopy (h : PyHeap) (a : ℕ) : PyHeap × ℕ := heapAlloc h (heapRead h a)

/-- `random.shuffle(order)`: an in-place permutation of the object at `a`. -/
def shuffleInPlace (js : ℕ → ℕ) (h : PyHeap) (a : ℕ) : PyHeap :=
  heapWrite h a (pyShuffle js (heapRead h a))

/-- `build_concat_file` seen as a state transformer on the heap
(`lofi-streamer.py` lines 271-285): copy the argument list, shuffle the copy
in place, emit the lines, return the address of the copy together with the
lines written. -/
def build_concat_file_heap (js : ℕ → ℕ) (h : PyHeap) (tracksAddr : ℕ) :
    PyHeap × ℕ × List Str :=
  let res := pyListCopy h tracksAddr
  let h2 := shuffleInPlace js res.1 res.2
  (h2, res.2, (heapRead h2 res.2).map concatLine)

/-! ## Sample data and spec-worded definitions -/

/-- A sample catalog track with no embedded metadata. -/
def trackA : Track :=
  { path := "/s/a.mp3".data, stem := "a".data, title := [], artist := [],
    mutagenLength := none, probeOutput := none }

/-- A sample catalog track with full embedded metadata. -/
def trackB : Track :=
  { path := "/s/b.mp3".data, stem := "b".data, title := "B Song".data,
    artist := "DJ".data, mutagenLength := some 240, probeOutput := none }

/-- A track whose embedded length is negative while ffprobe reports 42. -/
def trackNegLen : Track :=
  { path := "/s/n.mp3".data, stem := "n".data, title := [], artist := [],
    mutagenLength := some (-5), probeOutput := some 42 }

/-- A track with no embedded length whose ffprobe output parses to 0. -/
def trackProbeZero : Track :=
  { path := "/s/z.mp3".data, stem := "z".data, title := [], artist := [],
    mutagenLength := none, probeOutput := some 0 }

/-- A track whose path contains a literal single quote. -/
def trackQuote : Track :=
  { path := "/s/a'b.mp3".data, stem := "a'b".data, title := [], artist := [],
    mutagenLength := none, probeOutput := none }

/-- The rational 5/2, given as a normalized literal so that the kernel can
evaluate the resolver on it. -/
def fracLen : ℚ := ⟨5, 2, by decide, by decide⟩

/-- A track whose embedded length is the positive non-integer float 2.5. -/
def trackFracLen : Track :=
  { path := "/s/f.mp3".data, stem := "f".data, title := [], artist := [],
    mutagenLength := some fracLen, probeOutput := none }

/-- The escaping and line shape exactly as the spec words them: every literal
single quote of the path becomes the quoting rule's four characters, framed by
the fixed line prefix and suffix.  Stated from the specification text, to be
compared with the code-derived `concatLine`. -/
def specLine (path : Str) : Str :=
  "file '".data ++ path.flatMap (fun c => if c = squote then quoteEsc else [c])
    ++ "'\n".data

/-- The colon-escaping as the claim words it: every colon becomes a backslash
followed by a colon.  Stated from the claim text, to be compared with the
code-derived `_escape_drawtext`. -/
def specEscapeColon (s : Str) : Str :=
  s.flatMap (fun c => if c = colonChar then [bslash, colonChar] else [c])

/-! ## Helper lemmas -/

theorem pyReplace_cons_single (q : Char) (rep : Str) (c : Char) (cs : Str) :
    pyReplace [q] rep (c :: cs) =
      if c = q then rep ++ pyReplace [q] rep cs else c :: pyReplace [q] rep cs := by
  rw [pyReplace]
  by_cases hc : c = q
  · rw [dif_pos ⟨by simp, by simp [List.isPrefixOf, hc]⟩, if_pos hc]
    simp
  · rw [dif_neg, if_neg hc]
    rintro ⟨-, hpre⟩
    simp [List.isPrefixOf] at hpre
    exact hc hpre.symm

theorem pyReplace_single (q : Char) (rep : Str) (s : Str) :
    pyReplace [q] rep s = s.flatMap (fun c => if c = q then rep else [c]) := by
  induction s with
  | nil => simp [pyReplace]
  | cons c cs ih =>
    rw [pyReplace_cons_single]
    by_cases hc : c = q
    · simp [hc, ih]
    · simp [hc, ih]

theorem cons_set_perm {α : Type} (l : List α) (m : ℕ) (hm : m < l.length) (a : α) :
    List.Perm (l.get ⟨m, hm⟩ :: l.set m a) (a :: l) := by
  induction l generalizing m with
  | nil => simp at hm
  | cons x xs ih =>
    cases m with
    | zero => exact List.Perm.swap a x xs
    | succ m =>
      have hm' : m < xs.length := by simpa using hm
      have h1 : (x :: xs).get ⟨m + 1, hm⟩ :: (x :: xs).set (m + 1) a
          = xs.get ⟨m, hm'⟩ :: x :: xs.set m a := by simp
      rw [h1]
      exact ((List.Perm.swap x _ _).trans
        ((List.Perm.cons x (ih m hm')).trans (List.Perm.swap a x xs)))

theorem set_set_perm {α : Type} (l : List α) (i j : ℕ) (hi : i < l.length)
    (hj : j < l.length) :
    List.Perm ((l.set i (l.get ⟨j, hj⟩)).set j (l.get ⟨i, hi⟩)) l := by
  induction l generalizing i j with
  | nil => simp at hi
  | cons x xs ih =>
    cases i with
    | zero =>
      cases j with
      | zero => simp
      | succ j =>
        have hj' : j < xs.length := by simpa using hj
        simpa using cons_set_perm xs j hj' x
    | succ i =>
      have hi' : i < xs.length := by simpa using hi
      cases j with
      | zero =>
        simpa using cons_set_perm xs i hi' x
      | succ j =>
        have hj' : j < xs.length := by simpa using hj
        simpa using List.Perm.cons x (ih i j hi' hj')


theorem swapIdx_perm {α : Type} (l : List α) (i j : ℕ) : List.Perm (swapIdx l i j) l := by
  unfold swapIdx
  split
  · next a b hi hj =>
    obtain ⟨hi', ha⟩ := List.getElem?_eq_some.mp hi
    obtain ⟨hj', hb⟩ := List.getElem?_eq_some.mp hj
    have ha' : l.get ⟨i, hi'⟩ = a := ha
    have hb' : l.get ⟨j, hj'⟩ = b := hb
    rw [← ha', ← hb']
    exact set_set_perm l i j hi' hj'
  · exact List.Perm.refl l

theorem shuffleGo_perm {α : Type} (js : ℕ → ℕ) :
    ∀ (i : ℕ) (l : List α), List.Perm (shuffleGo js i l) l := by
  intro i
  induction i with
  | zero => intro l; exact List.Perm.refl l
  | succ i ih =>
    intro l
    exact (ih _).trans (swapIdx_perm l (i + 1) (js (i + 1) % (i + 2)))

theorem pyShuffle_perm {α : Type} (js : ℕ → ℕ) (l : List α) :
    List.Perm (pyShuffle js l) l :=
  shuffleGo_perm js (l.length - 1) l


theorem clockIndex_eq_mod (n : ℕ) (hn : n ≠ 0) (k : ℕ) : clockIndex n k = k % n := by
  induction k with
  | zero => simp [clockIndex]
  | succ k ih =>
    rw [clockIndex, ih]
    have hlt : k % n < n := Nat.mod_lt _ (Nat.pos_of_ne_zero hn)
    have key : (k + 1) % n = (k % n + 1) % n := by
      conv_lhs => rw [← Nat.mod_add_div k n]
      rw [Nat.add_right_comm, Nat.add_mul_mod_self_left]
    by_cases hc : k % n + 1 < n
    · rw [if_pos hc, key, Nat.mod_eq_of_lt hc]
    · have hn1 : k % n + 1 = n := by omega
      rw [if_neg hc, key, hn1, Nat.mod_self]


/-! ## Claim theorems -/

/-- C1: for every orchestration cycle (any catalog, any randomness), the
schedule built by `build_track_schedule` from the order returned by
`build_concat_file` has item components equal to that order,
element for element. -/
theorem schedule_order_matches_sequencer (js : ℕ → ℕ) (tracks : List Track) :
    (build_track_schedule ((build_concat_file js tracks).2)).map Prod.fst
      = (build_concat_file js tracks).2 := by
  simp [build_track_schedule, List.map_map, Function.comp_def]

/-- C2: for every catalog of size at least 1, the ordering returned by
`build_concat_file` is a permutation of the catalog: same multiset, same
size, same multiplicity for every item. -/
theorem sequencer_is_permutation (js : ℕ → ℕ) (tracks : List Track)
    (hN : 1 ≤ tracks.length) :
    List.Perm ((build_concat_file js tracks).2) tracks
      ∧ ((build_concat_file js tracks).2).length = tracks.length
      ∧ ∀ t : Track, ((build_concat_file js tracks).2).count t = tracks.count t := by
  have hp : List.Perm ((build_concat_file js tracks).2) tracks := pyShuffle_perm js tracks
  exact ⟨hp, hp.length_eq, fun t => hp.count_eq t⟩

/-- C2 witness: the theorem applied to a concrete two-track catalog. -/
theorem sequencer_is_permutation_witness :
    1 ≤ ([trackA, trackB] : List Track).length
      ∧ List.Perm ((build_concat_file (fun _ => 0) [trackA, trackB]).2) [trackA, trackB] :=
  ⟨by decide, (sequencer_is_permutation (fun _ => 0) [trackA, trackB] (by decide)).1⟩

/-- `fracLen` is the fraction 5/2. -/
theorem fracLen_eq : fracLen = 5 / 2 := by
  rw [fracLen, Rat.mk'_eq_divInt, Rat.divInt_eq_div]; norm_num

/-- C3 counterexample: the resolver does not return the embedded duration for
a positive non-integer length (it truncates), a present-but-negative embedded
length short-circuits to 1 instead of falling through to the positive probe
result, and a parseable nonpositive probe output yields 1 rather than the 180
fallback. -/
theorem duration_resolver_counterexample :
    (trackFracLen.mutagenLength = some (5 / 2) ∧ (0 : ℚ) < 5 / 2
        ∧ ((_track_duration trackFracLen : ℚ) ≠ 5 / 2))
    ∧ (trackNegLen.mutagenLength = some (-5) ∧ ¬ (0 : ℚ) < -5
        ∧ trackNegLen.probeOutput = some 42 ∧ (0 : ℚ) < 42
        ∧ _track_duration trackNegLen ≠ 42 ∧ _track_duration trackNegLen = 1)
    ∧ (trackProbeZero.mutagenLength = none ∧ trackProbeZero.probeOutput = some 0
        ∧ _track_duration trackProbeZero ≠ 180 ∧ _track_duration trackProbeZero = 1) := by
  refine ⟨⟨?_, by norm_num, ?_⟩, ⟨rfl, by norm_num, rfl, by norm_num, by decide, by decide⟩,
    ⟨rfl, rfl, by decide, by decide⟩⟩
  · show some fracLen = some (5 / 2)
    rw [fracLen_eq]
  · have h2 : _track_duration trackFracLen = 2 := by decide
    rw [h2]; norm_num

/-- C3 (amended): `_track_duration` returns `max 1 (int-truncation of D)` when
the embedded length `D` is present and nonzero; when it is absent or zero it
returns `max 1 (int-truncation of P)` for a parseable probe output `P` and the
fixed fallback 180 when the probe fails too; it is a total function (never
raises) and its result is always at least 1. -/
theorem duration_resolver_amended (t : Track) :
    (∀ d : ℚ, t.mutagenLength = some d → d ≠ 0 →
        _track_duration t = max 1 (pyInt d))
    ∧ (t.mutagenLength = none ∨ t.mutagenLength = some 0 →
        (∀ p : ℚ, t.probeOutput = some p → _track_duration t = max 1 (pyInt p))
        ∧ (t.probeOutput = none → _track_duration t = 180))
    ∧ 1 ≤ _track_duration t := by
  refine ⟨?_, ?_, ?_⟩
  · intro d hd hdz
    simp [_track_duration, hd, hdz]
  · intro h0
    constructor
    · intro p hp
      rcases h0 with h | h <;> simp [_track_duration, h, probe_duration, hp]
    · intro hp
      rcases h0 with h | h <;> simp [_track_duration, h, probe_duration, hp]
  · unfold _track_duration probe_duration
    rcases hm : t.mutagenLength with _ | d
    · rcases hp : t.probeOutput with _ | p
      · norm_num
      · exact le_max_left 1 (pyInt p)
    · by_cases hdz : d = 0
      · rcases hp : t.probeOutput with _ | p
        · simp [hdz]
        · simp only [hdz, ne_eq, not_true_eq_false, if_false]
          exact le_max_left 1 (pyInt p)
      · simp only [ne_eq, hdz, not_false_eq_true, if_true]
        exact le_max_left 1 (pyInt d)

/-- C3 witness: the amended theorem applied to a track with embedded length
240, giving duration `max 1 240`, together with the positivity floor. -/
theorem duration_resolver_amended_witness :
    _track_duration trackB = max 1 (pyInt 240) ∧ 1 ≤ _track_duration trackB :=
  ⟨(duration_resolver_amended trackB).1 240 rfl (by norm_num),
    (duration_resolver_amended trackB).2.2⟩

/-- C4 counterexample: for a schedule entry of duration 1 the clock sleeps 1
second, which is not `duration - epsilon` for the code's epsilon of 1 (the
sleep is floored at 1 by `max(1, dur - 1)`). -/
theorem metadata_clock_sleep_counterexample :
    (metadata_loop_event [(trackA, 1)] 0).2 = 1 ∧ (1 : ℤ) - 1 ≠ 1 := by
  constructor
  · decide
  · norm_num

/-- C4 (amended): for any non-empty schedule, the `k`-th iteration of
`metadata_loop` writes the label of entry `k mod n` (so labels are written in
schedule order within one pass, wrap from the last entry back to the first,
and repeat forever) and then sleeps `max 1 (duration - 1)` seconds. -/
theorem metadata_clock_cycles (sched : List (Track × ℤ)) (h : sched ≠ [])
    (k : ℕ) :
    metadata_loop_event sched k =
      (_get_now_playing_str (sched.getD (k % sched.length) default).1,
        max 1 ((sched.getD (k % sched.length) default).2 - 1)) := by
  have hn : sched.length ≠ 0 := (List.length_pos.mpr h).ne'
  simp [metadata_loop_event, metadataSleep, clockIndex_eq_mod _ hn k]

/-- C4 witness: the amended theorem applied to a concrete two-entry schedule
at iteration 3, which wraps around to entry 1. -/
theorem metadata_clock_cycles_witness :
    metadata_loop_event [(trackA, 5), (trackB, 7)] 3 =
      (_get_now_playing_str
          (([(trackA, 5), (trackB, 7)].getD (3 % [(trackA, 5), (trackB, 7)].length)
            default).1),
        max 1 ((([(trackA, 5), (trackB, 7)].getD
            (3 % [(trackA, 5), (trackB, 7)].length) default).2) - 1)) :=
  metadata_clock_cycles [(trackA, 5), (trackB, 7)] (by simp) 3

/-- Each code-produced playlist line has exactly the spec-described shape. -/
theorem concatLine_eq_specLine (t : Track) : concatLine t = specLine t.path := by
  simp [concatLine, specLine, pyReplace_single]

/-- C5: the persisted playlist file has exactly one line per item of the
returned order, and the `i`-th line is the quote-escaped path of the `i`-th
returned item framed as a concat-list entry. -/
theorem concat_file_lines (js : ℕ → ℕ) (tracks : List Track) :
    ((build_concat_file js tracks).1).length = ((build_concat_file js tracks).2).length
    ∧ ∀ i : ℕ, i < ((build_concat_file js tracks).2).length →
        ((build_concat_file js tracks).1).getD i []
          = specLine (((build_concat_file js tracks).2).getD i default).path := by
  constructor
  · simp [build_concat_file]
  · intro i hi
    have hmap : (build_concat_file js tracks).1
        = ((build_concat_file js tracks).2).map concatLine := rfl
    rw [hmap, List.getD_eq_getElem?_getD, List.getD_eq_getElem?_getD,
      List.getElem?_map, List.getElem?_eq_getElem hi]
    exact concatLine_eq_specLine _

/-- C5 witness: a one-track catalog whose path contains a quote. -/
theorem concat_file_lines_witness :
    (0 : ℕ) < ((build_concat_file (fun _ => 0) [trackQuote]).2).length
    ∧ ((build_concat_file (fun _ => 0) [trackQuote]).1).getD 0 []
        = specLine (((build_concat_file (fun _ => 0) [trackQuote]).2).getD 0 default).path :=
  ⟨by decide, (concat_file_lines (fun _ => 0) [trackQuote]).2 0 (by decide)⟩

/-- C6: evaluated at the failing configurations (unset stream URL, or empty
catalog): `lofi-streamer.py`'s `main` executes a bare `return` and the process
exits with status 0, not nonzero as specified; the per-track
`lofi-Streamer.py` does exit with status 1. -/
theorem startup_exit_status_eval :
    mainStartup [] [trackA] = .exited 0
    ∧ mainStartup "rtmp://x".data [] = .exited 0
    ∧ mainStartup_v74 [] [trackA] = .exited 1
    ∧ mainStartup_v74 "rtmp://x".data [] = .exited 1 := by
  refine ⟨by decide, by decide, by decide, by decide⟩

/-- C7: the reachability gate returns `True` at once when the skip flag is
set, whatever the connection attempt would have done, and returns `False`
instead of propagating the exception when the connection attempt fails; as a
total function it never raises. -/
theorem check_network_gate :
    (∀ conn : Except Unit Unit, check_network true conn = true)
    ∧ (∀ e : Unit, check_network false (Except.error e) = false) := by
  constructor
  · intro conn; rfl
  · intro e; rfl

/-- C8: the supervisor's RUNNING phase starts with a wait bounded by
`duration + TRACK_EXIT_BUFFER`; a kill is issued exactly when both the main
wait and the post-terminate grace wait time out, and whenever a kill is
issued the action sequence is wait, terminate, grace wait, kill — so kill is
never issued before terminate; when the process exits within the main wait no
terminate or kill happens at all. -/
theorem supervisor_running_phase (dur : ℤ) (exitsInMain exitsInGrace : Bool) :
    (running_phase dur exitsInMain exitsInGrace).head?
        = some (SupAction.wait (dur + TRACK_EXIT_BUFFER))
    ∧ (SupAction.kill ∈ running_phase dur exitsInMain exitsInGrace
        ↔ exitsInMain = false ∧ exitsInGrace = false)
    ∧ (SupAction.kill ∈ running_phase dur exitsInMain exitsInGrace →
        running_phase dur exitsInMain exitsInGrace =
          [SupAction.wait (dur + TRACK_EXIT_BUFFER), SupAction.terminate,
            SupAction.wait 5, SupAction.kill])
    ∧ (exitsInMain = true →
        running_phase dur exitsInMain exitsInGrace
          = [SupAction.wait (dur + TRACK_EXIT_BUFFER)]) := by
  cases exitsInMain <;> cases exitsInGrace <;> simp [running_phase]

/-- C8 witness: a process that survives both waits; every action up to the
kill is as described. -/
theorem supervisor_running_phase_witness :
    running_phase 10 false false =
      [SupAction.wait (10 + TRACK_EXIT_BUFFER), SupAction.terminate,
        SupAction.wait 5, SupAction.kill] :=
  (supervisor_running_phase 10 false false).2.2.1 (by decide)

/-- C9: `build_concat_file` never mutates the caller's list: it copies the
referenced list into a fresh cell and shuffles the copy in place, so the
caller's cell holds the same elements in the same order after the call. -/
theorem build_concat_file_frame (js : ℕ → ℕ) (h : PyHeap) (a : ℕ)
    (ha : a < h.cells.length) :
    heapRead (build_concat_file_heap js h a).1 a = heapRead h a := by
  unfold build_concat_file_heap pyListCopy heapAlloc shuffleInPlace heapWrite heapRead
  simp only
  rw [List.getD_eq_getElem?_getD, List.getD_eq_getElem?_getD,
    List.getElem?_set_ne (by omega), List.getElem?_append_left ha]

/-- C9 witness: a heap with one two-track list at address 0. -/
theorem build_concat_file_frame_witness :
    heapRead (build_concat_file_heap (fun _ => 0) ⟨[[trackA, trackB]]⟩ 0).1 0
      = heapRead ⟨[[trackA, trackB]]⟩ 0 :=
  build_concat_file_frame (fun _ => 0) ⟨[[trackA, trackB]]⟩ 0 (by decide)

/-- C10: the published label is the colon-escaped display string —
`artist - title` when an embedded artist is present, the title alone
otherwise, with the title falling back to the file stem when no embedded
title is readable — and a failed channel write is logged, not propagated
(the writer is a total function returning the logged outcome). -/
theorem now_playing_label (t : Track) :
    (t.artist ≠ [] →
      _get_now_playing_str t
        = specEscapeColon (t.artist ++ " - ".data
            ++ (if t.title = [] then t.stem else t.title)))
    ∧ (t.artist = [] →
      _get_now_playing_str t
        = specEscapeColon (if t.title = [] then t.stem else t.title))
    ∧ write_nowplaying_file t false
        = WriteResult.failedLogged (_get_now_playing_str t) := by
  refine ⟨?_, ?_, rfl⟩
  · intro ha
    simp [_get_now_playing_str, _escape_drawtext, specEscapeColon,
      pyReplace_single, ha]
  · intro ha
    simp [_get_now_playing_str, _escape_drawtext, specEscapeColon,
      pyReplace_single, ha]

/-- C10 witness: the label of a track with an embedded artist and title. -/
theorem now_playing_label_witness :
    _get_now_playing_str trackB
      = specEscapeColon (trackB.artist ++ " - ".data
          ++ (if trackB.title = [] then trackB.stem else trackB.title)) :=
  (now_playing_label trackB).1 (by decide)

end LofiStreamer
